import Mathlib

/-!
Shallow embedding of `src/main.py` (KoBoToolbox bulk-upload script) and
verification of its specification claims.

The script reads a parent table and several child tables, matches child rows
to each parent row by a configured foreign-key column, builds one XML
submission document per parent row (`process_submission`, lines 31-94),
and posts each document through a bounded thread pool (`main`, lines 118-155,
`post_submission`, lines 97-115).
-/

/-- A cell value as it appears in a pandas row: either a string or an
integer.  Equality is structural, exactly as the `==` filter in
`main.py` line 150 compares values without coercing between types. -/
inductive PyVal where
  | intVal : Int → PyVal
  | strVal : String → PyVal
deriving DecidableEq, Repr

/-- Python `str()` applied to a cell value (`main.py` lines 65-69, 83-87). -/
def pyStr : PyVal → String
  | .intVal n => toString n
  | .strVal s => s

/-- A row is a finite map from column names to values, as an association
list; lookup returns the first binding. -/
abbrev Row := List (String × PyVal)

/-- Dictionary lookup `row[key]`, `none` when the key is absent. -/
def Row.get? (r : Row) (key : String) : Option PyVal :=
  match r with
  | [] => none
  | (k, v) :: rest => if k = key then some v else Row.get? rest key

/-- The message of the `KeyError` Python raises on a missing key. -/
def keyError (key : String) : String := "KeyError: " ++ key

/-- Lookup `row[key]` as performed by `process_submission`: the value when present,
a `KeyError` otherwise (`main.py` lines 65-69 and 83-87 perform the raw
lookup with no default). -/
def getField (row : Row) (key : String) : Except String PyVal :=
  match row.get? key with
  | some v => Except.ok v
  | none => Except.error (keyError key)

/-- A calendar date, the value of the single `date.today()` call at
`main.py` line 46. -/
structure Date where
  year : Nat
  month : Nat
  day : Nat
deriving DecidableEq, Repr

/-- Zero-pad to two digits, as `%m` / `%d` do. -/
def pad2 (n : Nat) : String :=
  if n < 10 then "0" ++ toString n else toString n

/-- Zero-pad to four digits, as `%Y` does. -/
def pad4 (n : Nat) : String :=
  if n < 10 then "000" ++ toString n
  else if n < 100 then "00" ++ toString n
  else if n < 1000 then "0" ++ toString n
  else toString n

/-- Rendering `today.strftime('%Y-%m-%d')` (`main.py` line 47). -/
def isoFormat (d : Date) : String :=
  pad4 d.year ++ "-" ++ pad2 d.month ++ "-" ++ pad2 d.day

/-- An `xml.etree.ElementTree` element: tag, attributes in insertion
order, optional text, children in insertion order. -/
inductive Elem where
  | mk : String → List (String × String) → Option String → List Elem → Elem

/-- The element's tag. -/
def Elem.tag : Elem → String
  | .mk t _ _ _ => t

/-- The element's attribute list. -/
def Elem.attrs : Elem → List (String × String)
  | .mk _ a _ _ => a

/-- The element's text. -/
def Elem.text : Elem → Option String
  | .mk _ _ s _ => s

/-- The element's children. -/
def Elem.children : Elem → List Elem
  | .mk _ _ _ cs => cs

/-- First-match lookup in an attribute list. -/
def lookupPairs (l : List (String × String)) (key : String) : Option String :=
  match l with
  | [] => none
  | (k, v) :: rest => if k = key then some v else lookupPairs rest key

/-- Model of `element.get(key)`: attribute lookup. -/
def Elem.attr (e : Elem) (key : String) : Option String :=
  lookupPairs e.attrs key

/-- Model of `element.find(tag)`: the first child with the given tag. -/
def Elem.findChild (e : Elem) (t : String) : Option Elem :=
  e.children.find? (fun c => c.tag == t)

/-- Model of `element.findtext(tag)`: text of the first child with the given tag. -/
def Elem.childText (e : Elem) (t : String) : Option String :=
  (e.findChild t).bind Elem.text

/-- Model of `element.findall(tag)`: all children with the given tag, in order. -/
def Elem.childrenTagged (e : Elem) (t : String) : List Elem :=
  e.children.filter (fun c => c.tag == t)

/-- Tags of the element's children, in order. -/
def Elem.childTags (e : Elem) : List String :=
  e.children.map Elem.tag

/-- A leaf element carrying only text, as built by
`ET.SubElement(parent, tag).text = value`. -/
def textEl (t : String) (s : String) : Elem :=
  Elem.mk t [] (some s) []

/-- The five parent-row columns read by `process_submission`
(`main.py` lines 65-69), in lookup order. -/
def householdFields : List String :=
  ["FID", "HName", "HSex", "HAge", "HLocation"]

/-- The five child-row columns read per matching row
(`main.py` lines 83-87), in lookup order. -/
def individualFields : List String :=
  ["FID", "Individual_FullName", "Individual_Sex", "Individual_Age", "Relationship"]

/-- One `Individual` repeat-group element built from one matching child row
(`main.py` lines 80-87); the first missing column raises. -/
def buildIndividual (mr : Row) : Except String Elem :=
  match getField mr "FID" with
  | .error e => .error e
  | .ok fid =>
  match getField mr "Individual_FullName" with
  | .error e => .error e
  | .ok fullName =>
  match getField mr "Individual_Sex" with
  | .error e => .error e
  | .ok sex =>
  match getField mr "Individual_Age" with
  | .error e => .error e
  | .ok age =>
  match getField mr "Relationship" with
  | .error e => .error e
  | .ok rel =>
  .ok (Elem.mk "Individual" [] none
    [textEl "FID" (pyStr fid),
     textEl "Individual_FullName" (pyStr fullName),
     textEl "Individual_Sex" (pyStr sex),
     textEl "Individual_Age" (pyStr age),
     textEl "Relationship" (pyStr rel)])

/-- The `for j, matching_row in matching_rows.iterrows()` loop of
`main.py` lines 80-87: one `Individual` element per matching row, in row
order, aborting at the first missing column. -/
def buildIndividuals : List Row → Except String (List Elem)
  | [] => .ok []
  | mr :: rest =>
    match buildIndividual mr with
    | .error e => .error e
    | .ok e =>
      match buildIndividuals rest with
      | .error e2 => .error e2
      | .ok es => .ok (e :: es)

/-- The element tree assembled by `process_submission`
(`main.py` lines 49-92): root `data` with `id` and the two namespace
attributes, then `start`/`end`/`today`, the `intro` group, the
`household` group, the `Individual` repeats, and `meta/instanceID`. -/
def builtDoc (project_uuid : String) (today_str : String)
    (fid hname hsex hage hloc : PyVal)
    (other_members hhsize : String) (individuals : List Elem) : Elem :=
  Elem.mk "data"
    [("id", project_uuid),
     ("xmlns:orx", "http://openrosa.org/xforms"),
     ("xmlns:jr", "http://openrosa.org/javarosa")]
    none
    ([textEl "start" today_str,
      textEl "end" today_str,
      textEl "today" today_str,
      Elem.mk "intro" [] none [textEl "acknowledgement" "OK"],
      Elem.mk "household" [] none
        [textEl "FID" (pyStr fid),
         textEl "HName" (pyStr hname),
         textEl "HSex" (pyStr hsex),
         textEl "HAge" (pyStr hage),
         textEl "HLocation" (pyStr hloc),
         textEl "other_members" other_members,
         textEl "HHSize" hhsize]]
     ++ individuals
     ++ [Elem.mk "meta" [] none [Elem.mk "instanceID" [] (some project_uuid) []]])

/-- Embedding of `process_submission(row, matching_rows, project_uuid)` (`main.py`
lines 31-94).  The single `date.today()` read of line 46 is the `today`
argument; line 47 renders it once to `today_str`.  Field lookups happen
in source order and the first missing column raises a `KeyError`. -/
def process_submission (row : Row) (matching_rows : List Row)
    (project_uuid : String) (today : Date) : Except String Elem :=
  let today_str := isoFormat today
  match getField row "FID" with
  | .error e => .error e
  | .ok fid =>
  match getField row "HName" with
  | .error e => .error e
  | .ok hname =>
  match getField row "HSex" with
  | .error e => .error e
  | .ok hsex =>
  match getField row "HAge" with
  | .error e => .error e
  | .ok hage =>
  match getField row "HLocation" with
  | .error e => .error e
  | .ok hloc =>
  match buildIndividuals matching_rows with
  | .error e => .error e
  | .ok individuals =>
  .ok (builtDoc project_uuid today_str fid hname hsex hage hloc
    (if matching_rows.isEmpty then "No" else "Yes")
    (toString (matching_rows.length + 1))
    individuals)

/-- Attribute rendering inside a start tag. -/
def attrString (attrs : List (String × String)) : String :=
  String.join (attrs.map (fun p => " " ++ p.1 ++ "=\x22" ++ p.2 ++ "\x22"))

mutual

/-- Body of `ET.tostring` (`main.py` line 110): text, then children; an
element with neither is self-closing. -/
def serializeElem : Elem → String
  | .mk t a txt cs =>
    match txt, cs with
    | none, [] => "<" ++ t ++ attrString a ++ " />"
    | _, _ =>
      "<" ++ t ++ attrString a ++ ">" ++ (txt.getD "") ++ serializeList cs
        ++ "</" ++ t ++ ">"

/-- Children serialized in order. -/
def serializeList : List Elem → String
  | [] => ""
  | e :: es => serializeElem e ++ serializeList es

end

/-- Serialization `ET.tostring(root, encoding='utf-8', method='xml')`: the XML
declaration followed by the serialized root element. -/
def serialize (root : Elem) : String :=
  "<?xml version=\x271.0\x27 encoding=\x27utf-8\x27?>\n" ++ serializeElem root

/-- The serialized bytes of a build outcome, when the build succeeded. -/
def xmlBytes (r : Except String Elem) : Option String :=
  r.toOption.map serialize

/-- An HTTP response as seen by `post_submission`. -/
structure HttpResponse where
  status_code : Nat
  text : String
deriving DecidableEq, Repr

/-- Outcome of the `requests.post` call at `main.py` line 112: either a
response, or a raised error (network failure etc.) with its message. -/
inductive SendOutcome where
  | response : HttpResponse → SendOutcome
  | raised : String → SendOutcome
deriving DecidableEq, Repr

/-- The log line `post_submission` emits on success (`main.py` line 113). -/
def statusLog (r : HttpResponse) : String :=
  "Submission status: " ++ toString r.status_code ++ " " ++ r.text

/-- The log line `post_submission` emits on failure (`main.py` line 115). -/
def failureLog (e : String) : String :=
  "Failed to post submission: " ++ e

/-- Embedding of `post_submission(root, endpoint, headers)` (`main.py` lines 97-115):
serialize the document, send it, and log the outcome.  The whole body sits
inside `try/except Exception`, so every outcome — response or raised
error — becomes a log line and nothing propagates; `send` abstracts the
`requests.post` call on the serialized payload. -/
def post_submission (root : Elem) (send : String → SendOutcome) : String :=
  let xml_string := serialize root
  match send xml_string with
  | .response r => statusLog r
  | .raised e => failureLog e

/-- The dispatches submitted for a batch of built documents: one
`post_submission` per document, each attempted independently
(`main.py` line 155 submits every document to the pool). -/
def dispatchBatch (roots : List Elem) (send : String → SendOutcome) : List String :=
  roots.map (fun r => post_submission r send)

/-- One configured child table (`config['child_data_paths']` entry): its
display name and, when the file exists on disk, its rows; `none` models
`os.path.isfile` returning false (`main.py` line 148). -/
structure ChildSource where
  name : String
  data : Option (List Row)

/-- The warning logged for a missing child source (`main.py` line 152). -/
def missingWarning (name : String) : String :=
  name ++ " does not exist!"

/-- The matching loop of `main.py` lines 145-153: for each configured
child table in order, if its file exists keep the rows whose
`child_id_column` equals the parent key (structural equality, row order
preserved) and append them; otherwise log a warning and skip the table.
Returns the matched rows and the warnings.  (The `if len(df_children) > 0`
guard at line 146 only skips an empty loop and changes nothing.) -/
def matchChildren (child_id_column : String) (sources : List ChildSource)
    (parent_id : PyVal) : List Row × List String :=
  match sources with
  | [] => ([], [])
  | s :: rest =>
    let acc := matchChildren child_id_column rest parent_id
    match s.data with
    | some rows =>
      ((rows.filter (fun r => r.get? child_id_column == some parent_id)) ++ acc.1, acc.2)
    | none => (acc.1, missingWarning s.name :: acc.2)

/-- Follows the spec's words (§4.1): "read all rows whose foreign-key
column equals `parentKey` ... preserving the table's row order" and
"multiple child tables are concatenated in the order they are
configured"; a missing source contributes nothing. -/
def matchSpec (child_id_column : String) (sources : List ChildSource)
    (parent_id : PyVal) : List Row :=
  (sources.map (fun s =>
    match s.data with
    | some rows => rows.filter (fun r => r.get? child_id_column == some parent_id)
    | none => [])).flatten

/-- The configuration fields `main` reads (`config.json`). -/
structure Config where
  parent_id_column : String
  child_id_column : String
  project_uuid : String

/-- The per-parent-row body of the `main` loop (`main.py` lines 143-155):
look up the parent key (a missing key raises), match the child rows, and
build the submission document.  Errors abort the run, as `main` catches
nothing inside the loop. -/
def processParents (cfg : Config) (sources : List ChildSource) (today : Date) :
    List Row → Except String (List Elem)
  | [] => .ok []
  | row :: rest =>
    match getField row cfg.parent_id_column with
    | .error e => .error e
    | .ok parent_id =>
      match process_submission row
          (matchChildren cfg.child_id_column sources parent_id).1
          cfg.project_uuid today with
      | .error e => .error e
      | .ok doc =>
        match processParents cfg sources today rest with
        | .error e => .error e
        | .ok docs => .ok (doc :: docs)

/-- The documents built in one run of `main` over the parent table. -/
def mainRun (cfg : Config) (parents : List Row) (sources : List ChildSource)
    (today : Date) : Except String (List Elem) :=
  processParents cfg sources today parents

/-- The `max_workers=5` bound at `main.py` line 142. -/
def concurrencyLimit : Nat := 5

/-- Counters of one executor pool: tasks submitted but not started,
tasks running on a worker, tasks finished. -/
structure PoolState where
  queued : Nat
  running : Nat
  completed : Nat
deriving DecidableEq, Repr

/-- Modelled from the spec: the semantics of
`ThreadPoolExecutor(max_workers=5)` (`main.py` line 142) live in the
Python standard library, outside this repository.  Per §4.4/§5, the pool
is a bounded-concurrency work pool: `submit` enqueues a unit of work
unconditionally (the orchestrating thread never waits), a worker may
`start` a queued unit only while fewer than `concurrencyLimit` units are
running, and a running unit may `finish`. -/
inductive PoolStep : PoolState → PoolState → Prop where
  | submit (s : PoolState) :
      PoolStep s ⟨s.queued + 1, s.running, s.completed⟩
  | start (s : PoolState) (hq : 0 < s.queued) (hr : s.running < concurrencyLimit) :
      PoolStep s ⟨s.queued - 1, s.running + 1, s.completed⟩
  | finish (s : PoolState) (hr : 0 < s.running) :
      PoolStep s ⟨s.queued, s.running - 1, s.completed + 1⟩

/-- Pool states reachable from the idle pool `main` creates. -/
def PoolReachable (s : PoolState) : Prop :=
  Relation.ReflTransGen PoolStep ⟨0, 0, 0⟩ s

/-- The `HHSize`-style fields of a document: text of the named child of
the `household` group. -/
def householdField (doc : Elem) (k : String) : Option String :=
  (doc.findChild "household").bind (fun h => Elem.childText h k)

/-- The `meta/instanceID` text of a document. -/
def metaInstanceID (doc : Elem) : Option String :=
  (doc.findChild "meta").bind (fun m => Elem.childText m "instanceID")

theorem getField_ok_iff (r : Row) (k : String) (v : PyVal) :
    getField r k = Except.ok v ↔ r.get? k = some v := by
  cases h : r.get? k <;> simp [getField, h]

theorem getField_congr (r r' : Row) (k : String) (h : r.get? k = r'.get? k) :
    getField r k = getField r' k := by
  simp [getField, h]

theorem buildIndividual_ok_iff (mr : Row) (e : Elem) :
    buildIndividual mr = Except.ok e ↔
    ∃ v1 v2 v3 v4 v5,
      mr.get? "FID" = some v1 ∧ mr.get? "Individual_FullName" = some v2 ∧
      mr.get? "Individual_Sex" = some v3 ∧ mr.get? "Individual_Age" = some v4 ∧
      mr.get? "Relationship" = some v5 ∧
      e = Elem.mk "Individual" [] none
        [textEl "FID" (pyStr v1),
         textEl "Individual_FullName" (pyStr v2),
         textEl "Individual_Sex" (pyStr v3),
         textEl "Individual_Age" (pyStr v4),
         textEl "Relationship" (pyStr v5)] := by
  constructor
  · intro h
    rcases h1 : mr.get? "FID" with _ | v1
    · simp [buildIndividual, getField, h1] at h
    rcases h2 : mr.get? "Individual_FullName" with _ | v2
    · simp [buildIndividual, getField, h1, h2] at h
    rcases h3 : mr.get? "Individual_Sex" with _ | v3
    · simp [buildIndividual, getField, h1, h2, h3] at h
    rcases h4 : mr.get? "Individual_Age" with _ | v4
    · simp [buildIndividual, getField, h1, h2, h3, h4] at h
    rcases h5 : mr.get? "Relationship" with _ | v5
    · simp [buildIndividual, getField, h1, h2, h3, h4, h5] at h
    · simp [buildIndividual, getField, h1, h2, h3, h4, h5] at h
      exact ⟨v1, v2, v3, v4, v5, rfl, rfl, rfl, rfl, rfl, h.symm⟩
  · rintro ⟨v1, v2, v3, v4, v5, h1, h2, h3, h4, h5, rfl⟩
    simp [buildIndividual, getField, h1, h2, h3, h4, h5]

theorem buildIndividual_tag (mr : Row) (e : Elem)
    (h : buildIndividual mr = Except.ok e) : e.tag = "Individual" := by
  obtain ⟨v1, v2, v3, v4, v5, _, _, _, _, _, rfl⟩ := (buildIndividual_ok_iff mr e).mp h
  rfl

theorem buildIndividual_childTags (mr : Row) (e : Elem)
    (h : buildIndividual mr = Except.ok e) : e.childTags = individualFields := by
  obtain ⟨v1, v2, v3, v4, v5, _, _, _, _, _, rfl⟩ := (buildIndividual_ok_iff mr e).mp h
  rfl

theorem buildIndividuals_forall₂ (l : List Row) (ys : List Elem)
    (h : buildIndividuals l = Except.ok ys) :
    List.Forall₂ (fun mr e => buildIndividual mr = Except.ok e) l ys := by
  induction l generalizing ys with
  | nil =>
    simp [buildIndividuals] at h
    subst h
    exact List.Forall₂.nil
  | cons mr rest ih =>
    rcases h1 : buildIndividual mr with e1 | y
    · simp [buildIndividuals, h1] at h
    rcases h2 : buildIndividuals rest with e2 | ys0
    · simp [buildIndividuals, h1, h2] at h
    · simp [buildIndividuals, h1, h2] at h
      subst h
      exact List.Forall₂.cons h1 (ih ys0 h2)

theorem buildIndividuals_length (l : List Row) (ys : List Elem)
    (h : buildIndividuals l = Except.ok ys) : ys.length = l.length :=
  (buildIndividuals_forall₂ l ys h).length_eq.symm

theorem buildIndividuals_tags (l : List Row) (ys : List Elem)
    (h : buildIndividuals l = Except.ok ys) :
    ∀ e ∈ ys, e.tag = "Individual" := by
  have hf := buildIndividuals_forall₂ l ys h
  clear h
  induction hf with
  | nil => intro e he; simp at he
  | cons h1 _ ih =>
    intro e he
    rcases List.mem_cons.mp he with rfl | htail
    · exact buildIndividual_tag _ _ h1
    · exact ih e htail

theorem buildIndividuals_mem_ok (l : List Row) (ys : List Elem)
    (h : buildIndividuals l = Except.ok ys) :
    ∀ mr ∈ l, ∃ e, buildIndividual mr = Except.ok e := by
  induction l generalizing ys with
  | nil => intro mr hmr; simp at hmr
  | cons a rest ih =>
    rcases h1 : buildIndividual a with e1 | y
    · simp [buildIndividuals, h1] at h
    rcases h2 : buildIndividuals rest with e2 | ys0
    · simp [buildIndividuals, h1, h2] at h
    · intro mr hmr
      rcases List.mem_cons.mp hmr with rfl | htail
      · exact ⟨y, h1⟩
      · exact ih ys0 h2 mr htail

theorem process_submission_ok_iff (row : Row) (mrs : List Row)
    (u : String) (d : Date) (doc : Elem) :
    process_submission row mrs u d = Except.ok doc ↔
    ∃ fid hname hsex hage hloc ys,
      row.get? "FID" = some fid ∧ row.get? "HName" = some hname ∧
      row.get? "HSex" = some hsex ∧ row.get? "HAge" = some hage ∧
      row.get? "HLocation" = some hloc ∧
      buildIndividuals mrs = Except.ok ys ∧
      doc = builtDoc u (isoFormat d) fid hname hsex hage hloc
        (if mrs.isEmpty then "No" else "Yes")
        (toString (mrs.length + 1)) ys := by
  constructor
  · intro h
    rcases h1 : row.get? "FID" with _ | fid
    · simp [process_submission, getField, h1] at h
    rcases h2 : row.get? "HName" with _ | hname
    · simp [process_submission, getField, h1, h2] at h
    rcases h3 : row.get? "HSex" with _ | hsex
    · simp [process_submission, getField, h1, h2, h3] at h
    rcases h4 : row.get? "HAge" with _ | hage
    · simp [process_submission, getField, h1, h2, h3, h4] at h
    rcases h5 : row.get? "HLocation" with _ | hloc
    · simp [process_submission, getField, h1, h2, h3, h4, h5] at h
    rcases h6 : buildIndividuals mrs with e | ys
    · simp [process_submission, getField, h1, h2, h3, h4, h5, h6] at h
    · simp [process_submission, getField, h1, h2, h3, h4, h5, h6] at h
      refine ⟨fid, hname, hsex, hage, hloc, ys, rfl, rfl, rfl, rfl, rfl, rfl, ?_⟩
      simpa using h.symm
  · rintro ⟨fid, hname, hsex, hage, hloc, ys, h1, h2, h3, h4, h5, h6, rfl⟩
    simp [process_submission, getField, h1, h2, h3, h4, h5, h6]

theorem builtDoc_attr_id (u t : String) (fid hname hsex hage hloc : PyVal)
    (om hh : String) (ys : List Elem) :
    (builtDoc u t fid hname hsex hage hloc om hh ys).attr "id" = some u := rfl

theorem builtDoc_childText_start (u t : String) (fid hname hsex hage hloc : PyVal)
    (om hh : String) (ys : List Elem) :
    (builtDoc u t fid hname hsex hage hloc om hh ys).childText "start" = some t := rfl

theorem builtDoc_childText_end (u t : String) (fid hname hsex hage hloc : PyVal)
    (om hh : String) (ys : List Elem) :
    (builtDoc u t fid hname hsex hage hloc om hh ys).childText "end" = some t := rfl

theorem builtDoc_childText_today (u t : String) (fid hname hsex hage hloc : PyVal)
    (om hh : String) (ys : List Elem) :
    (builtDoc u t fid hname hsex hage hloc om hh ys).childText "today" = some t := rfl

theorem builtDoc_householdField_HHSize (u t : String)
    (fid hname hsex hage hloc : PyVal) (om hh : String) (ys : List Elem) :
    householdField (builtDoc u t fid hname hsex hage hloc om hh ys) "HHSize" = some hh := rfl

theorem builtDoc_householdField_other_members (u t : String)
    (fid hname hsex hage hloc : PyVal) (om hh : String) (ys : List Elem) :
    householdField (builtDoc u t fid hname hsex hage hloc om hh ys) "other_members"
      = some om := rfl

theorem builtDoc_household_childTags (u t : String)
    (fid hname hsex hage hloc : PyVal) (om hh : String) (ys : List Elem) :
    ((builtDoc u t fid hname hsex hage hloc om hh ys).findChild "household").map
      Elem.childTags
      = some ["FID", "HName", "HSex", "HAge", "HLocation", "other_members", "HHSize"] := rfl

theorem builtDoc_metaInstanceID (u t : String) (fid hname hsex hage hloc : PyVal)
    (om hh : String) (ys : List Elem)
    (hys : ∀ e ∈ ys, e.tag = "Individual") :
    metaInstanceID (builtDoc u t fid hname hsex hage hloc om hh ys) = some u := by
  have hnone : List.find? (fun c => c.tag == "meta") ys = none :=
    List.find?_eq_none.mpr (by intro e he; simp [hys e he])
  simp only [metaInstanceID, builtDoc, Elem.findChild, Elem.children]
  rw [List.find?_append, List.find?_append, hnone]
  rfl

theorem builtDoc_childrenTagged_Individual (u t : String)
    (fid hname hsex hage hloc : PyVal) (om hh : String) (ys : List Elem)
    (hys : ∀ e ∈ ys, e.tag = "Individual") :
    (builtDoc u t fid hname hsex hage hloc om hh ys).childrenTagged "Individual" = ys := by
  have hself : List.filter (fun c => c.tag == "Individual") ys = ys :=
    List.filter_eq_self.mpr (by intro e he; simp [hys e he])
  simp only [Elem.childrenTagged, builtDoc, Elem.children]
  rw [List.filter_append, List.filter_append, hself]
  simp [textEl, Elem.tag]

theorem buildIndividual_congr (a b : Row)
    (h : ∀ f ∈ individualFields, a.get? f = b.get? f) :
    buildIndividual a = buildIndividual b := by
  have e1 := getField_congr a b "FID" (h _ (by simp [individualFields]))
  have e2 := getField_congr a b "Individual_FullName" (h _ (by simp [individualFields]))
  have e3 := getField_congr a b "Individual_Sex" (h _ (by simp [individualFields]))
  have e4 := getField_congr a b "Individual_Age" (h _ (by simp [individualFields]))
  have e5 := getField_congr a b "Relationship" (h _ (by simp [individualFields]))
  simp only [buildIndividual, e1, e2, e3, e4, e5]

theorem buildIndividuals_congr (l l' : List Row)
    (h : List.Forall₂ (fun a b => ∀ f ∈ individualFields, a.get? f = b.get? f) l l') :
    buildIndividuals l = buildIndividuals l' := by
  induction h with
  | nil => rfl
  | cons hab _ ih => simp only [buildIndividuals, buildIndividual_congr _ _ hab, ih]

theorem process_submission_congr (row row' : Row) (mrs mrs' : List Row)
    (u : String) (d : Date)
    (hrow : ∀ f ∈ householdFields, row.get? f = row'.get? f)
    (hmrs : List.Forall₂ (fun a b => ∀ f ∈ individualFields, a.get? f = b.get? f) mrs mrs') :
    process_submission row mrs u d = process_submission row' mrs' u d := by
  have e1 := getField_congr row row' "FID" (hrow _ (by simp [householdFields]))
  have e2 := getField_congr row row' "HName" (hrow _ (by simp [householdFields]))
  have e3 := getField_congr row row' "HSex" (hrow _ (by simp [householdFields]))
  have e4 := getField_congr row row' "HAge" (hrow _ (by simp [householdFields]))
  have e5 := getField_congr row row' "HLocation" (hrow _ (by simp [householdFields]))
  have hbi := buildIndividuals_congr mrs mrs' hmrs
  have hlen : mrs.length = mrs'.length := hmrs.length_eq
  have hemp : mrs.isEmpty = mrs'.isEmpty := by cases hmrs <;> rfl
  simp only [process_submission, e1, e2, e3, e4, e5, hbi, hlen, hemp]

theorem buildIndividual_cases (mr : Row) :
    (∃ e, buildIndividual mr = Except.ok e) ∨
    (∃ g ∈ individualFields, mr.get? g = none ∧
      buildIndividual mr = Except.error (keyError g)) := by
  rcases h1 : mr.get? "FID" with _ | v1
  · exact Or.inr ⟨"FID", by simp [individualFields], h1,
      by simp [buildIndividual, getField, h1]⟩
  rcases h2 : mr.get? "Individual_FullName" with _ | v2
  · exact Or.inr ⟨"Individual_FullName", by simp [individualFields], h2,
      by simp [buildIndividual, getField, h1, h2]⟩
  rcases h3 : mr.get? "Individual_Sex" with _ | v3
  · exact Or.inr ⟨"Individual_Sex", by simp [individualFields], h3,
      by simp [buildIndividual, getField, h1, h2, h3]⟩
  rcases h4 : mr.get? "Individual_Age" with _ | v4
  · exact Or.inr ⟨"Individual_Age", by simp [individualFields], h4,
      by simp [buildIndividual, getField, h1, h2, h3, h4]⟩
  rcases h5 : mr.get? "Relationship" with _ | v5
  · exact Or.inr ⟨"Relationship", by simp [individualFields], h5,
      by simp [buildIndividual, getField, h1, h2, h3, h4, h5]⟩
  · exact Or.inl ⟨Elem.mk "Individual" [] none
      [textEl "FID" (pyStr v1), textEl "Individual_FullName" (pyStr v2),
       textEl "Individual_Sex" (pyStr v3), textEl "Individual_Age" (pyStr v4),
       textEl "Relationship" (pyStr v5)],
      by simp [buildIndividual, getField, h1, h2, h3, h4, h5]⟩

theorem buildIndividuals_cases (l : List Row) :
    (∃ ys, buildIndividuals l = Except.ok ys) ∨
    (∃ g ∈ individualFields, buildIndividuals l = Except.error (keyError g)) := by
  induction l with
  | nil => exact Or.inl ⟨[], rfl⟩
  | cons a rest ih =>
    rcases buildIndividual_cases a with ⟨e, he⟩ | ⟨g, hg, _, herr⟩
    · rcases ih with ⟨ys, hys⟩ | ⟨g, hg, herr⟩
      · exact Or.inl ⟨e :: ys, by simp [buildIndividuals, he, hys]⟩
      · exact Or.inr ⟨g, hg, by simp [buildIndividuals, he, herr]⟩
    · exact Or.inr ⟨g, hg, by simp [buildIndividuals, herr]⟩

theorem process_submission_cases (row : Row) (mrs : List Row) (u : String) (d : Date) :
    (∃ doc, process_submission row mrs u d = Except.ok doc) ∨
    (∃ g, (g ∈ householdFields ∨ g ∈ individualFields) ∧
      process_submission row mrs u d = Except.error (keyError g)) := by
  rcases h1 : row.get? "FID" with _ | v1
  · exact Or.inr ⟨"FID", Or.inl (by simp [householdFields]),
      by simp [process_submission, getField, h1]⟩
  rcases h2 : row.get? "HName" with _ | v2
  · exact Or.inr ⟨"HName", Or.inl (by simp [householdFields]),
      by simp [process_submission, getField, h1, h2]⟩
  rcases h3 : row.get? "HSex" with _ | v3
  · exact Or.inr ⟨"HSex", Or.inl (by simp [householdFields]),
      by simp [process_submission, getField, h1, h2, h3]⟩
  rcases h4 : row.get? "HAge" with _ | v4
  · exact Or.inr ⟨"HAge", Or.inl (by simp [householdFields]),
      by simp [process_submission, getField, h1, h2, h3, h4]⟩
  rcases h5 : row.get? "HLocation" with _ | v5
  · exact Or.inr ⟨"HLocation", Or.inl (by simp [householdFields]),
      by simp [process_submission, getField, h1, h2, h3, h4, h5]⟩
  rcases buildIndividuals_cases mrs with ⟨ys, hys⟩ | ⟨g, hg, herr⟩
  · exact Or.inl ⟨builtDoc u (isoFormat d) v1 v2 v3 v4 v5
      (if mrs.isEmpty then "No" else "Yes") (toString (mrs.length + 1)) ys,
      by simp [process_submission, getField, h1, h2, h3, h4, h5, hys]⟩
  · exact Or.inr ⟨g, Or.inr hg,
      by simp [process_submission, getField, h1, h2, h3, h4, h5, herr]⟩

theorem buildIndividual_ok_fields (mr : Row) (e : Elem)
    (h : buildIndividual mr = Except.ok e) :
    ∀ f ∈ individualFields, ∃ v, mr.get? f = some v := by
  obtain ⟨v1, v2, v3, v4, v5, h1, h2, h3, h4, h5, _⟩ :=
    (buildIndividual_ok_iff mr e).mp h
  intro f hf
  simp only [individualFields, List.mem_cons, List.not_mem_nil, or_false] at hf
  rcases hf with rfl | rfl | rfl | rfl | rfl
  exacts [⟨v1, h1⟩, ⟨v2, h2⟩, ⟨v3, h3⟩, ⟨v4, h4⟩, ⟨v5, h5⟩]

theorem buildIndividuals_childTags (l : List Row) (ys : List Elem)
    (h : buildIndividuals l = Except.ok ys) :
    ∀ e ∈ ys, e.childTags = individualFields := by
  have hf := buildIndividuals_forall₂ l ys h
  clear h
  induction hf with
  | nil => intro e he; simp at he
  | cons h1 _ ih =>
    intro e he
    rcases List.mem_cons.mp he with rfl | htail
    · exact buildIndividual_childTags _ _ h1
    · exact ih e htail

theorem matchChildren_fst (col : String) (srcs : List ChildSource) (pid : PyVal) :
    (matchChildren col srcs pid).1 = matchSpec col srcs pid := by
  induction srcs with
  | nil => rfl
  | cons s rest ih =>
    cases hd : s.data with
    | none => simp [matchChildren, matchSpec, hd, ih]
    | some rows => simp [matchChildren, matchSpec, hd, ih]

theorem matchChildren_mem (col : String) (srcs : List ChildSource) (pid : PyVal)
    (r : Row) (h : r ∈ (matchChildren col srcs pid).1) :
    r.get? col = some pid := by
  induction srcs with
  | nil => simp [matchChildren] at h
  | cons s rest ih =>
    cases hd : s.data with
    | none =>
      rw [matchChildren, hd] at h
      exact ih h
    | some rows =>
      rw [matchChildren, hd] at h
      rcases List.mem_append.mp h with hl | hr
      · have := (List.mem_filter.mp hl).2
        simpa using this
      · exact ih hr

theorem processParents_mem (cfg : Config) (sources : List ChildSource) (today : Date)
    (parents : List Row) (docs : List Elem)
    (h : processParents cfg sources today parents = Except.ok docs) :
    ∀ doc ∈ docs, ∃ row mrs,
      process_submission row mrs cfg.project_uuid today = Except.ok doc := by
  induction parents generalizing docs with
  | nil =>
    simp [processParents] at h
    subst h
    intro doc hdoc
    simp at hdoc
  | cons row rest ih =>
    rcases hp : getField row cfg.parent_id_column with e | pid
    · simp [processParents, hp] at h
    rcases hq : process_submission row
        (matchChildren cfg.child_id_column sources pid).1 cfg.project_uuid today
        with e | doc0
    · simp [processParents, hp, hq] at h
    rcases hr : processParents cfg sources today rest with e | docs0
    · simp [processParents, hp, hq, hr] at h
    · simp [processParents, hp, hq, hr] at h
      subst h
      intro doc hdoc
      rcases List.mem_cons.mp hdoc with rfl | ht
      · exact ⟨row, _, hq⟩
      · exact ih docs0 hr doc ht

theorem poolReachable_running_le (s : PoolState) (h : PoolReachable s) :
    s.running ≤ concurrencyLimit := by
  induction h with
  | refl => decide
  | tail _ hstep ih =>
    cases hstep with
    | submit => exact ih
    | start hq hr => exact hr
    | finish hr => exact le_trans (Nat.sub_le _ _) ih

/-- Parent row of the round-trip example in the spec (§8). -/
def sampleParent : Row :=
  [("FID", PyVal.intVal 1), ("HName", PyVal.strVal "Doe"),
   ("HSex", PyVal.strVal "M"), ("HAge", PyVal.intVal 40),
   ("HLocation", PyVal.strVal "X")]

/-- A first matching child row. -/
def sampleChild1 : Row :=
  [("FID", PyVal.intVal 1), ("Individual_FullName", PyVal.strVal "Ann"),
   ("Individual_Sex", PyVal.strVal "F"), ("Individual_Age", PyVal.intVal 12),
   ("Relationship", PyVal.strVal "Daughter")]

/-- A second matching child row. -/
def sampleChild2 : Row :=
  [("FID", PyVal.intVal 1), ("Individual_FullName", PyVal.strVal "Ben"),
   ("Individual_Sex", PyVal.strVal "M"), ("Individual_Age", PyVal.intVal 9),
   ("Relationship", PyVal.strVal "Son")]

/-- A fixed current date for concrete evaluations. -/
def sampleDate : Date := ⟨2026, 10, 12⟩

/-- The document built from the sample parent and its two children. -/
def sampleDoc : Elem :=
  (process_submission sampleParent [sampleChild1, sampleChild2] "uuid-123"
    sampleDate).toOption.getD (Elem.mk "unreachable" [] none [])

/-- C1: with zero matched children the household carries HHSize "1" and
other_members "No"; with N ≥ 1 matched children it carries HHSize
rendering N+1 and other_members "Yes", and exactly N `Individual`
elements appear, in the order of the matched children. -/
theorem household_size_flag_and_individuals (row : Row) (mrs : List Row)
    (u : String) (d : Date) (doc : Elem)
    (h : process_submission row mrs u d = Except.ok doc) :
    (mrs = [] →
      householdField doc "HHSize" = some "1" ∧
      householdField doc "other_members" = some "No") ∧
    (mrs ≠ [] →
      householdField doc "HHSize" = some (toString (mrs.length + 1)) ∧
      householdField doc "other_members" = some "Yes") ∧
    (∃ ys, doc.childrenTagged "Individual" = ys ∧
      List.Forall₂ (fun mr e => buildIndividual mr = Except.ok e) mrs ys ∧
      ys.length = mrs.length) := by
  obtain ⟨fid, hname, hsex, hage, hloc, ys, _, _, _, _, _, hbi, rfl⟩ :=
    (process_submission_ok_iff row mrs u d doc).mp h
  have htags := buildIndividuals_tags mrs ys hbi
  refine ⟨?_, ?_,
    ⟨ys, builtDoc_childrenTagged_Individual _ _ _ _ _ _ _ _ _ _ htags,
      buildIndividuals_forall₂ mrs ys hbi, buildIndividuals_length mrs ys hbi⟩⟩
  · rintro rfl
    exact ⟨builtDoc_householdField_HHSize _ _ _ _ _ _ _ _ _ _,
      builtDoc_householdField_other_members _ _ _ _ _ _ _ _ _ _⟩
  · intro hne
    rcases mrs with _ | ⟨m, ms⟩
    · exact absurd rfl hne
    · exact ⟨builtDoc_householdField_HHSize _ _ _ _ _ _ _ _ _ _,
        builtDoc_householdField_other_members _ _ _ _ _ _ _ _ _ _⟩

/-- Witness for C1 at the spec's round-trip example: two matched
children give HHSize "3", other_members "Yes", two Individuals. -/
theorem household_size_flag_and_individuals_witness :
    process_submission sampleParent [sampleChild1, sampleChild2] "uuid-123" sampleDate
      = Except.ok sampleDoc ∧
    (([sampleChild1, sampleChild2] : List Row) = [] →
      householdField sampleDoc "HHSize" = some "1" ∧
      householdField sampleDoc "other_members" = some "No") ∧
    (([sampleChild1, sampleChild2] : List Row) ≠ [] →
      householdField sampleDoc "HHSize"
        = some (toString (([sampleChild1, sampleChild2] : List Row).length + 1)) ∧
      householdField sampleDoc "other_members" = some "Yes") ∧
    (∃ ys, sampleDoc.childrenTagged "Individual" = ys ∧
      List.Forall₂ (fun mr e => buildIndividual mr = Except.ok e)
        [sampleChild1, sampleChild2] ys ∧
      ys.length = ([sampleChild1, sampleChild2] : List Row).length) :=
  ⟨rfl, household_size_flag_and_individuals sampleParent [sampleChild1, sampleChild2]
    "uuid-123" sampleDate sampleDoc rfl⟩

/-- Configuration for the concrete sample run. -/
def sampleConfig : Config := ⟨"FID", "FID", "uuid-123"⟩

/-- One present child source holding the two sample children. -/
def sampleSources : List ChildSource :=
  [⟨"children.xlsx", some [sampleChild1, sampleChild2]⟩]

/-- The documents of the concrete sample run. -/
def sampleDocs : List Elem :=
  (mainRun sampleConfig [sampleParent] sampleSources sampleDate).toOption.getD []

/-- The single document of the concrete sample run. -/
def sampleRunDoc : Elem := sampleDocs.headD (Elem.mk "unreachable" [] none [])

/-- C2: every document built in a run carries the configured project UUID
both as the root `id` attribute and as the `meta/instanceID` text; no
per-submission identifier is generated. -/
theorem run_reuses_project_uuid (cfg : Config) (parents : List Row)
    (sources : List ChildSource) (today : Date) (docs : List Elem) (doc : Elem)
    (hrun : mainRun cfg parents sources today = Except.ok docs)
    (hdoc : doc ∈ docs) :
    doc.attr "id" = some cfg.project_uuid ∧
    metaInstanceID doc = some cfg.project_uuid := by
  obtain ⟨row, mrs, hp⟩ := processParents_mem cfg sources today parents docs hrun doc hdoc
  obtain ⟨fid, hname, hsex, hage, hloc, ys, _, _, _, _, _, hbi, rfl⟩ :=
    (process_submission_ok_iff row mrs cfg.project_uuid today _).mp hp
  exact ⟨builtDoc_attr_id _ _ _ _ _ _ _ _ _ _,
    builtDoc_metaInstanceID _ _ _ _ _ _ _ _ _ _ (buildIndividuals_tags mrs ys hbi)⟩

/-- Witness for C2 on the concrete sample run. -/
theorem run_reuses_project_uuid_witness :
    mainRun sampleConfig [sampleParent] sampleSources sampleDate
      = Except.ok sampleDocs ∧
    sampleRunDoc ∈ sampleDocs ∧
    (sampleRunDoc.attr "id" = some sampleConfig.project_uuid ∧
      metaInstanceID sampleRunDoc = some sampleConfig.project_uuid) :=
  ⟨rfl, List.Mem.head _,
    run_reuses_project_uuid sampleConfig [sampleParent] sampleSources sampleDate
      sampleDocs sampleRunDoc rfl (List.Mem.head _)⟩

/-- C3: the three date elements `start`, `end` and `today` all carry the
ISO rendering of the one `date.today()` read of the call, so they can
never disagree within one document. -/
theorem date_fields_agree (row : Row) (mrs : List Row) (u : String) (d : Date)
    (doc : Elem) (h : process_submission row mrs u d = Except.ok doc) :
    doc.childText "start" = some (isoFormat d) ∧
    doc.childText "end" = some (isoFormat d) ∧
    doc.childText "today" = some (isoFormat d) := by
  obtain ⟨fid, hname, hsex, hage, hloc, ys, _, _, _, _, _, _, rfl⟩ :=
    (process_submission_ok_iff row mrs u d doc).mp h
  exact ⟨builtDoc_childText_start _ _ _ _ _ _ _ _ _ _,
    builtDoc_childText_end _ _ _ _ _ _ _ _ _ _,
    builtDoc_childText_today _ _ _ _ _ _ _ _ _ _⟩

/-- Witness for C3 on the sample document. -/
theorem date_fields_agree_witness :
    process_submission sampleParent [sampleChild1, sampleChild2] "uuid-123" sampleDate
      = Except.ok sampleDoc ∧
    (sampleDoc.childText "start" = some (isoFormat sampleDate) ∧
      sampleDoc.childText "end" = some (isoFormat sampleDate) ∧
      sampleDoc.childText "today" = some (isoFormat sampleDate)) :=
  ⟨rfl, date_fields_agree sampleParent [sampleChild1, sampleChild2] "uuid-123"
    sampleDate sampleDoc rfl⟩

/-- C4: the matcher returns exactly the child rows whose foreign-key
column structurally equals the parent key, concatenated in configuration
order of the tables with each table's row order preserved (the
spec-worded `matchSpec`), and every returned row's key matches exactly. -/
theorem matcher_exact_equality_in_order (col : String) (srcs : List ChildSource)
    (pid : PyVal) (r : Row) (hr : r ∈ (matchChildren col srcs pid).1) :
    (matchChildren col srcs pid).1 = matchSpec col srcs pid ∧
    r.get? col = some pid :=
  ⟨matchChildren_fst col srcs pid, matchChildren_mem col srcs pid r hr⟩

/-- Witness for C4: the first sample child is matched and carries the key. -/
theorem matcher_exact_equality_in_order_witness :
    sampleChild1 ∈ (matchChildren "FID" sampleSources (PyVal.intVal 1)).1 ∧
    ((matchChildren "FID" sampleSources (PyVal.intVal 1)).1
        = matchSpec "FID" sampleSources (PyVal.intVal 1) ∧
      sampleChild1.get? "FID" = some (PyVal.intVal 1)) :=
  ⟨by decide, matcher_exact_equality_in_order "FID" sampleSources (PyVal.intVal 1)
    sampleChild1 (by decide)⟩

/-- C5: a configured child table whose source file is absent contributes
zero rows, yields a warning naming the table, and the (total) matcher
carries on with the remaining sources exactly as if the table were not
configured. -/
theorem missing_child_source_skipped (col : String) (pre post : List ChildSource)
    (s : ChildSource) (pid : PyVal) (hmiss : s.data = none) :
    (matchChildren col (pre ++ s :: post) pid).1
      = (matchChildren col (pre ++ post) pid).1 ∧
    missingWarning s.name ∈ (matchChildren col (pre ++ s :: post) pid).2 := by
  induction pre with
  | nil => exact ⟨by simp [matchChildren, hmiss], by simp [matchChildren, hmiss]⟩
  | cons p pre' ih =>
    cases hd : p.data with
    | none =>
      refine ⟨?_, ?_⟩
      · simp only [List.cons_append, matchChildren, hd]
        exact ih.1
      · simp only [List.cons_append, matchChildren, hd]
        exact List.mem_cons_of_mem _ ih.2
    | some rows =>
      refine ⟨?_, ?_⟩
      · simp only [List.cons_append, matchChildren, hd]
        exact congrArg (fun l => List.filter
          (fun r => r.get? col == some pid) rows ++ l) ih.1
      · simp only [List.cons_append, matchChildren, hd]
        exact ih.2

/-- Witness for C5: a missing source between two present ones is skipped
with a warning while both neighbours still contribute. -/
theorem missing_child_source_skipped_witness :
    (ChildSource.mk "missing.xlsx" none).data = none ∧
    ((matchChildren "FID" (sampleSources ++ ChildSource.mk "missing.xlsx" none
        :: sampleSources) (PyVal.intVal 1)).1
      = (matchChildren "FID" (sampleSources ++ sampleSources) (PyVal.intVal 1)).1 ∧
    missingWarning (ChildSource.mk "missing.xlsx" none).name
      ∈ (matchChildren "FID" (sampleSources ++ ChildSource.mk "missing.xlsx" none
          :: sampleSources) (PyVal.intVal 1)).2) :=
  ⟨rfl, missing_child_source_skipped "FID" sampleSources sampleSources
    (ChildSource.mk "missing.xlsx" none) (PyVal.intVal 1) rfl⟩

/-- C6: every dispatch outcome — HTTP response or raised network error —
is turned into a log line inside `post_submission` and nothing
propagates; every document in a batch gets its own dispatch regardless
of how sibling dispatches fare. -/
theorem dispatch_failure_contained (roots : List Elem) (send : String → SendOutcome) :
    (∀ root : Elem,
      (∃ r, send (serialize root) = SendOutcome.response r ∧
        post_submission root send = statusLog r) ∨
      (∃ e, send (serialize root) = SendOutcome.raised e ∧
        post_submission root send = failureLog e)) ∧
    (dispatchBatch roots send).length = roots.length ∧
    (∀ root ∈ roots, post_submission root send ∈ dispatchBatch roots send) := by
  refine ⟨?_, by simp [dispatchBatch], ?_⟩
  · intro root
    cases hs : send (serialize root) with
    | response r => exact Or.inl ⟨r, rfl, by simp [post_submission, hs]⟩
    | raised e => exact Or.inr ⟨e, rfl, by simp [post_submission, hs]⟩
  · intro root hroot
    exact List.mem_map_of_mem _ hroot

/-- Witness for C6 with an always-failing transport: the failure is
logged and the batch of two documents still yields two log lines. -/
theorem dispatch_failure_contained_witness :
    (∀ root : Elem,
      (∃ r, (fun _ : String => SendOutcome.raised "ConnectionError") (serialize root)
          = SendOutcome.response r ∧
        post_submission root (fun _ => SendOutcome.raised "ConnectionError")
          = statusLog r) ∨
      (∃ e, (fun _ : String => SendOutcome.raised "ConnectionError") (serialize root)
          = SendOutcome.raised e ∧
        post_submission root (fun _ => SendOutcome.raised "ConnectionError")
          = failureLog e)) ∧
    (dispatchBatch [sampleDoc, sampleRunDoc]
        (fun _ => SendOutcome.raised "ConnectionError")).length
      = ([sampleDoc, sampleRunDoc] : List Elem).length ∧
    (∀ root ∈ ([sampleDoc, sampleRunDoc] : List Elem),
      post_submission root (fun _ => SendOutcome.raised "ConnectionError")
        ∈ dispatchBatch [sampleDoc, sampleRunDoc]
            (fun _ => SendOutcome.raised "ConnectionError")) :=
  dispatch_failure_contained [sampleDoc, sampleRunDoc]
    (fun _ => SendOutcome.raised "ConnectionError")

/-- C7: a parent or matched child row missing one of the expected columns
makes the builder fail with a `KeyError`-style missing-key error; no
document is produced with a substituted blank. -/
theorem missing_field_fails_loudly (row : Row) (mrs : List Row) (u : String) (d : Date)
    (h : (∃ f ∈ householdFields, row.get? f = none) ∨
      (∃ mr ∈ mrs, ∃ f ∈ individualFields, mr.get? f = none)) :
    ∃ g, process_submission row mrs u d = Except.error (keyError g) := by
  rcases process_submission_cases row mrs u d with ⟨doc, hok⟩ | ⟨g, _, herr⟩
  · exfalso
    obtain ⟨fid, hname, hsex, hage, hloc, ys, h1, h2, h3, h4, h5, hbi, _⟩ :=
      (process_submission_ok_iff row mrs u d doc).mp hok
    rcases h with ⟨f, hf, hnone⟩ | ⟨mr, hmr, f, hf, hnone⟩
    · simp only [householdFields, List.mem_cons, List.not_mem_nil, or_false] at hf
      rcases hf with rfl | rfl | rfl | rfl | rfl <;> simp_all
    · obtain ⟨e, he⟩ := buildIndividuals_mem_ok mrs ys hbi mr hmr
      obtain ⟨v, hv⟩ := buildIndividual_ok_fields mr e he f hf
      rw [hv] at hnone
      exact Option.noConfusion hnone
  · exact ⟨g, herr⟩

/-- Witness for C7: a parent row lacking `HName` makes the build error. -/
theorem missing_field_fails_loudly_witness :
    ((∃ f ∈ householdFields, Row.get? [("FID", PyVal.intVal 7)] f = none) ∨
      (∃ mr ∈ ([] : List Row), ∃ f ∈ individualFields, Row.get? mr f = none)) ∧
    ∃ g, process_submission [("FID", PyVal.intVal 7)] [] "uuid-123" sampleDate
        = Except.error (keyError g) :=
  ⟨Or.inl ⟨"HName", by decide, rfl⟩,
    missing_field_fails_loudly [("FID", PyVal.intVal 7)] [] "uuid-123" sampleDate
      (Or.inl ⟨"HName", by decide, rfl⟩)⟩

/-- C8: the document builder is pure and deterministic: equal parent row,
matched children, project UUID and current date give the same document
and byte-identical serialized output. -/
theorem builder_deterministic (row row' : Row) (mrs mrs' : List Row)
    (u u' : String) (d d' : Date)
    (h1 : row = row') (h2 : mrs = mrs') (h3 : u = u') (h4 : d = d') :
    process_submission row mrs u d = process_submission row' mrs' u' d' ∧
    xmlBytes (process_submission row mrs u d)
      = xmlBytes (process_submission row' mrs' u' d') := by
  subst h1 h2 h3 h4
  exact ⟨rfl, rfl⟩

/-- Witness for C8 at the sample inputs. -/
theorem builder_deterministic_witness :
    sampleParent = sampleParent ∧
    ([sampleChild1, sampleChild2] : List Row) = [sampleChild1, sampleChild2] ∧
    "uuid-123" = "uuid-123" ∧ sampleDate = sampleDate ∧
    (process_submission sampleParent [sampleChild1, sampleChild2] "uuid-123" sampleDate
        = process_submission sampleParent [sampleChild1, sampleChild2] "uuid-123"
          sampleDate ∧
      xmlBytes (process_submission sampleParent [sampleChild1, sampleChild2]
          "uuid-123" sampleDate)
        = xmlBytes (process_submission sampleParent [sampleChild1, sampleChild2]
          "uuid-123" sampleDate)) :=
  ⟨rfl, rfl, rfl, rfl,
    builder_deterministic sampleParent sampleParent [sampleChild1, sampleChild2]
      [sampleChild1, sampleChild2] "uuid-123" "uuid-123" sampleDate sampleDate
      rfl rfl rfl rfl⟩

/-- C9: in every reachable state of the dispatch pool at most
`concurrencyLimit` = 5 dispatches are running at once, and submitting the
next unit of work is always possible — the orchestrating thread never
waits on prior dispatches. -/
theorem dispatch_pool_bounded (s : PoolState) (h : PoolReachable s) :
    s.running ≤ concurrencyLimit ∧ concurrencyLimit = 5 ∧
    PoolStep s ⟨s.queued + 1, s.running, s.completed⟩ :=
  ⟨poolReachable_running_le s h, rfl, PoolStep.submit s⟩

/-- Witness for C9 on a reachable state with one running dispatch. -/
theorem dispatch_pool_bounded_witness :
    PoolReachable ⟨0, 1, 0⟩ ∧
    ((1 : Nat) ≤ concurrencyLimit ∧ concurrencyLimit = 5 ∧
      PoolStep ⟨0, 1, 0⟩ ⟨0 + 1, 1, 0⟩) := by
  have h1 : PoolStep ⟨0, 0, 0⟩ ⟨1, 0, 0⟩ := PoolStep.submit ⟨0, 0, 0⟩
  have h2 : PoolStep ⟨1, 0, 0⟩ ⟨0, 1, 0⟩ :=
    PoolStep.start ⟨1, 0, 0⟩ (by decide) (by decide)
  have hr : PoolReachable ⟨0, 1, 0⟩ :=
    Relation.ReflTransGen.tail (Relation.ReflTransGen.tail
      Relation.ReflTransGen.refl h1) h2
  exact ⟨hr, dispatch_pool_bounded ⟨0, 1, 0⟩ hr⟩

/-- C10: the builder reads exactly the fixed household and individual
columns: the household group carries exactly those five fields (plus the
two computed elements), every Individual group carries exactly its five
fields, and rows that agree on those columns — whatever other fields
they carry — produce the very same document. -/
theorem only_fixed_fields_used (row row' : Row) (mrs mrs' : List Row)
    (u : String) (d : Date) (doc : Elem)
    (hok : process_submission row mrs u d = Except.ok doc)
    (hrow : ∀ f ∈ householdFields, row.get? f = row'.get? f)
    (hmrs : List.Forall₂
      (fun a b => ∀ f ∈ individualFields, a.get? f = b.get? f) mrs mrs') :
    ((doc.findChild "household").map Elem.childTags
        = some (householdFields ++ ["other_members", "HHSize"])) ∧
    (∀ ind ∈ doc.childrenTagged "Individual", ind.childTags = individualFields) ∧
    process_submission row' mrs' u d = Except.ok doc := by
  obtain ⟨fid, hname, hsex, hage, hloc, ys, _, _, _, _, _, hbi, rfl⟩ :=
    (process_submission_ok_iff row mrs u d doc).mp hok
  refine ⟨builtDoc_household_childTags _ _ _ _ _ _ _ _ _ _, ?_, ?_⟩
  · rw [builtDoc_childrenTagged_Individual _ _ _ _ _ _ _ _ _ _
      (buildIndividuals_tags mrs ys hbi)]
    exact buildIndividuals_childTags mrs ys hbi
  · rw [← process_submission_congr row row' mrs mrs' u d hrow hmrs]
    exact hok

/-- The sample parent with an extra column the builder never reads. -/
def sampleParentExtra : Row := sampleParent ++ [("Extra", PyVal.strVal "ignored")]

/-- The first sample child with an extra column the builder never reads. -/
def sampleChild1Extra : Row := sampleChild1 ++ [("Note", PyVal.strVal "ignored")]

/-- The document built from the sample parent and its first child. -/
def sampleDoc1 : Elem :=
  (process_submission sampleParent [sampleChild1] "uuid-123"
    sampleDate).toOption.getD (Elem.mk "unreachable" [] none [])

/-- Witness for C10: adding unread columns to the rows leaves the built
document unchanged. -/
theorem only_fixed_fields_used_witness :
    process_submission sampleParent [sampleChild1] "uuid-123" sampleDate
      = Except.ok sampleDoc1 ∧
    (∀ f ∈ householdFields, Row.get? sampleParent f = Row.get? sampleParentExtra f) ∧
    List.Forall₂ (fun a b => ∀ f ∈ individualFields, Row.get? a f = Row.get? b f)
      [sampleChild1] [sampleChild1Extra] ∧
    (((sampleDoc1.findChild "household").map Elem.childTags
        = some (householdFields ++ ["other_members", "HHSize"])) ∧
      (∀ ind ∈ sampleDoc1.childrenTagged "Individual",
        ind.childTags = individualFields) ∧
      process_submission sampleParentExtra [sampleChild1Extra] "uuid-123" sampleDate
        = Except.ok sampleDoc1) := by
  have hrow : ∀ f ∈ householdFields,
      Row.get? sampleParent f = Row.get? sampleParentExtra f := by decide
  have hmrs : List.Forall₂
      (fun a b => ∀ f ∈ individualFields, Row.get? a f = Row.get? b f)
      [sampleChild1] [sampleChild1Extra] :=
    List.Forall₂.cons (by decide) List.Forall₂.nil
  exact ⟨rfl, hrow, hmrs,
    only_fixed_fields_used sampleParent sampleParentExtra [sampleChild1]
      [sampleChild1Extra] "uuid-123" sampleDate sampleDoc1 rfl hrow hmrs⟩
